import Mathlib

/-!
Verification of the multi-tenant product-catalog backend (`root` Django app).

The Lean definitions below are a shallow embedding of the Python sources:
`root/models.py`, `root/views.py`, `root/admin.py`, `root/serializer.py`.
Querysets are modelled as lists of rows, HTTP requests as records of the
headers and query parameters the code reads, and the image pipeline as pure
functions over a symbolic image value.  Behaviour that the code relies on
from its substrate (Python truthiness, Django `FieldFile` attribute
semantics, DRF pagination arithmetic) is embedded explicitly where the
code's behaviour depends on it, with comments citing the relevant semantics.
-/

namespace MultiTenant

/-- Python truthiness of an optional string (`None` and `""` are falsy).
Used wherever the source writes `if not origin:` / `if marque:` on a value
obtained from `request.META.get` / `query_params.get`. -/
def pyTruthy : Option String → Bool
  | none => false
  | some s => s ≠ ""

/-- Boolean list-prefix test (helper for the `__icontains` embedding). -/
def isPref : List Char → List Char → Bool
  | [], _ => true
  | _ :: _, [] => false
  | a :: as, b :: bs => a == b && isPref as bs

/-- Boolean list-infix test (helper for the `__icontains` embedding). -/
def isInf (needle : List Char) : List Char → Bool
  | [] => isPref needle []
  | b :: bs => isPref needle (b :: bs) || isInf needle bs

/-- ASCII lower-casing of one character (the catalog's domain strings and
query terms are ASCII; SQL `LOWER` and Python `str.lower()` agree with this
on that range). -/
def lowerChar (c : Char) : Char :=
  if 'A' ≤ c ∧ c ≤ 'Z' then Char.ofNat (c.toNat + 32) else c

/-- ASCII lower-casing of a string, defined character-wise so that concrete
instances evaluate inside the kernel. -/
def lowerStr (s : String) : String :=
  ⟨s.data.map lowerChar⟩

/-- Django `field__icontains=needle`: case-insensitive substring match. -/
def icontains (hay needle : String) : Bool :=
  isInf (lowerStr needle).data (lowerStr hay).data

/-- Django `field__iexact=needle`: case-insensitive equality. -/
def iexact (hay needle : String) : Bool :=
  lowerStr hay == lowerStr needle

/-- The whitespace characters Python `str.strip()` and `str.split()` treat
as separators (the ones that occur in HTTP query parameters). -/
def isSpaceChar (c : Char) : Bool :=
  c = ' ' ∨ c = '\t' ∨ c = '\n' ∨ c = '\r'

/-- Python `str.strip()` on the character list. -/
def trimChars (cs : List Char) : List Char :=
  ((cs.dropWhile isSpaceChar).reverse.dropWhile isSpaceChar).reverse

/-- Python `str.strip()`. -/
def pyStrip (s : String) : String :=
  ⟨trimChars s.data⟩

/-- Digit-string to number (`none` when empty or a non-digit occurs):
the core of Python `int(s)`. -/
def digitsToNat? : List Char → Option Nat
  | [] => none
  | cs =>
      cs.foldl
        (fun acc c =>
          match acc with
          | none => none
          | some n =>
              if '0' ≤ c ∧ c ≤ '9' then some (n * 10 + (c.toNat - 48))
              else none)
        (some 0)

/-- Python `int(s)` for the shapes a query parameter can take: optional
surrounding whitespace, an optional sign, then decimal digits; `none` models
the `ValueError` on anything else. -/
def pyInt? (s : String) : Option Int :=
  match trimChars s.data with
  | '-' :: rest => (digitsToNat? rest).map (fun n => -(n : Int))
  | '+' :: rest => (digitsToNat? rest).map (fun n => (n : Int))
  | cs => (digitsToNat? cs).map (fun n => (n : Int))

/-!
## Data model (`root/models.py`)

Rows are records carrying the columns the claims touch.  Foreign keys are
embedded as the referenced row (for `Article.marque`/`Article.categorie`,
which the API serializes inline) or as the referenced primary key (for the
`client` tenant column, which every filter compares by equality).
-/

/-- `models.Client` — the tenant: unique name, unique domain URL, active
flag, one-to-one admin user. -/
structure Client where
  id : Nat
  nom : String
  domaine : String
  actif : Bool
  deriving DecidableEq, Repr

/-- `models.Categorie` — belongs to one tenant (`client` FK), has a name. -/
structure Categorie where
  id : Nat
  clientId : Nat
  nom : String
  deriving DecidableEq, Repr

/-- `models.Marque` — belongs to one tenant, has a display name and a logo
image reference (modelled by its storage name). -/
structure Marque where
  id : Nat
  clientId : Nat
  nom_marque : String
  logo : String
  deriving DecidableEq, Repr

/-- Pillow colour modes that occur in the pipeline's branch
(`img.mode in ('RGBA', 'LA', 'P')`) plus the plain opaque modes. -/
inductive PMode where
  | RGB
  | RGBA
  | LA
  | P
  | L
  deriving DecidableEq, Repr

/-- Whether a Pillow mode can carry alpha/transparency (RGBA and LA have an
alpha channel; palette images can have a transparent palette entry). -/
def PMode.carriesAlpha : PMode → Bool
  | .RGBA => true
  | .LA => true
  | .P => true
  | _ => false

/-- A decoded in-memory image: colour mode and pixel dimensions. -/
structure PImage where
  mode : PMode
  width : Nat
  height : Nat
  deriving DecidableEq, Repr

/-- An image file sitting in an `ImageField` slot.
`content` is what `PIL.Image.open` recovers from the bytes — `none` models a
corrupted/unreadable file, whose decode raises and is caught.  `quality` is
the JPEG quality this pipeline encoded the bytes with, when it did.
`hasFileAttr` embeds Python's `hasattr(field, 'file')`: Django's
`FieldFile.file` is a property whose getter opens the underlying storage
file, so it is `true` both for a freshly assigned upload and for a persisted
field whose file the storage can open (`hasattr` only swallows
`AttributeError`, and no `AttributeError` arises on an accessible file). -/
structure UploadFile where
  name : String
  content : Option PImage
  quality : Option Nat
  hasFileAttr : Bool
  deriving DecidableEq, Repr

/-- `models.Article` — belongs to one tenant, references one brand and
optionally one category; scalar columns and three original-image slots with
their three derived-thumbnail slots.  `prix` (a two-place decimal) is
modelled as an integer count of cents; `date_ajout` as an integer
timestamp. -/
structure Article where
  id : Nat
  clientId : Nat
  marque : Marque
  categorie : Option Categorie
  modele : String
  prix : Int
  stokcage : Option Int
  ram : Option Int
  image : Option UploadFile
  image1 : Option UploadFile
  image2 : Option UploadFile
  image_thumbnail : Option UploadFile
  image1_thumbnail : Option UploadFile
  image2_thumbnail : Option UploadFile
  date_ajout : Nat
  deriving DecidableEq, Repr

/-!
## Requests
-/

/-- The parts of a Django/DRF request the embedded code reads:
`request.META['HTTP_ORIGIN']`, `request.META['HTTP_REFERER']`, and
`request.query_params` / `request.user`. -/
structure Request where
  httpOrigin : Option String
  httpReferer : Option String
  queryParams : List (String × String)
  deriving Repr

/-- `request.query_params.get(key, None)`: first binding wins. -/
def Request.getParam (req : Request) (key : String) : Option String :=
  (req.queryParams.find? (fun kv => kv.1 == key)).map (·.2)

/-!
## Domain-based tenant resolution (`views.ClientFilterMixin`)
-/

/-- Break a character list at the first occurrence of `sep`, returning the
parts before and after it; `none` when `sep` does not occur. -/
def breakOnSub (sep : List Char) : List Char → Option (List Char × List Char)
  | [] => if sep.isEmpty then some ([], []) else none
  | c :: cs =>
      if isPref sep (c :: cs) then some ([], (c :: cs).drop sep.length)
      else (breakOnSub sep cs).map (fun p => (c :: p.1, p.2))

/-- `urllib.parse.urlparse(referer)` reduced to the two components the code
uses, recombined as `f"{parsed.scheme}://{parsed.netloc}"` for a well-formed
`scheme://host/...` referer: the scheme is what precedes `"://"` and the
netloc runs to the next `/`.  A referer carrying no `"://"` parses with
empty scheme and netloc, giving the string `"://"`, which matches no
registered domain. -/
def derivedOrigin (referer : String) : String :=
  match breakOnSub "://".data referer.data with
  | none => "://"
  | some (scheme, rest) =>
      (⟨scheme⟩ : String) ++ "://" ++ (⟨rest.takeWhile (· ≠ '/')⟩ : String)

/-- Python `str.rstrip('/')`: drop trailing slash characters. -/
def rstripSlash (s : String) : String :=
  ⟨(s.data.reverse.dropWhile (· == '/')).reverse⟩

/-- The origin string `views.ClientFilterMixin.get_client_from_request`
derives before the tenant lookup: the `HTTP_ORIGIN` header when truthy, else
the scheme+host of a non-empty `HTTP_REFERER`, normalised by stripping
trailing slashes; `none` when neither yields a truthy string. -/
def Request.resolvedOrigin (req : Request) : Option String :=
  let origin0 :=
    if pyTruthy req.httpOrigin then req.httpOrigin.getD ""
    else
      let referer := req.httpReferer.getD ""
      if referer ≠ "" then derivedOrigin referer else ""
  if origin0 = "" then none else some (rstripSlash origin0)

/-- `views.ClientFilterMixin.get_client_from_request`: resolve the request's
origin, then `Client.objects.get(domaine=origin, actif=True)`; a miss
(`Client.DoesNotExist`) yields `None`.  `domaine` is a unique column, so the
`get` is modelled by `find?` over the client table. -/
def get_client_from_request (clients : List Client) (req : Request) :
    Option Client :=
  match req.resolvedOrigin with
  | none => none
  | some origin => clients.find? (fun c => c.domaine == origin && c.actif)

/-- `views.ClientFilterMixin.filter_queryset_by_client`: empty queryset when
no tenant resolves, otherwise `queryset.filter(client=client)`. -/
def filter_queryset_by_client (clients : List Client) (req : Request)
    (qs : List Article) : List Article :=
  match get_client_from_request clients req with
  | none => []
  | some c => qs.filter (fun a => a.clientId == c.id)

/-!
## Principal-based tenant resolution (`admin.ClientFilterMixin`)
-/

/-- The authenticated admin principal: the superuser flag and the tenant
one-to-one linked to it (`request.user.client`); `none` embeds the
`Client.DoesNotExist` raised when no tenant links to the user. -/
structure AdminUser where
  is_superuser : Bool
  client : Option Client
  deriving Repr

/-- `admin.ClientFilterMixin.get_queryset`, generic over the admined row
type (`clientIdOf` reads the row's `client` FK): superusers see everything,
a linked user sees `qs.filter(client=client)`, an unlinked user sees
`qs.none()`. -/
def admin_get_queryset {α : Type} (clientIdOf : α → Nat) (user : AdminUser)
    (qs : List α) : List α :=
  if user.is_superuser then qs
  else
    match user.client with
    | some c => qs.filter (fun r => clientIdOf r == c.id)
    | none => []

/-- `admin.ClientFilterMixin.get_fields`: for a non-superuser, `'client'` is
dropped from the form's field list when present. -/
def admin_get_fields (user : AdminUser) (fields : List String) :
    List String :=
  if !user.is_superuser && fields.contains "client" then
    fields.filter (fun f => f ≠ "client")
  else fields

/-- An object about to be persisted by the admin, as `save_model` sees it:
only the tenant column matters to the claims, the rest of the row is
abstract. -/
structure PendingObj where
  clientId : Option Nat
  deriving DecidableEq, Repr

/-- `admin.ClientFilterMixin.save_model`: on creation (`not change`) by a
non-superuser, stamp `obj.client = request.user.client`; an unlinked user
(`Client.DoesNotExist`) is a `pass`, leaving the object as it was.  The
object is then persisted unchanged (`super().save_model`). -/
def save_model (user : AdminUser) (obj : PendingObj) (change : Bool) :
    PendingObj :=
  if !change then
    if !user.is_superuser then
      match user.client with
      | some c => { obj with clientId := some c.id }
      | none => obj
    else obj
  else obj

/-!
## Image derivation pipeline (`models.Article.save` and helpers)
-/

/-- `os.path.splitext(name)[0]`: the filename with its final `.extension`
removed (the whole name when it has no dot).  Uploaded article images are
`stem.ext` names with a non-empty stem, so the leading-dot corner of
`splitext` does not arise. -/
def splitextStem (name : String) : String :=
  if name.data.contains '.' then
    ⟨(((name.data.reverse.dropWhile (· ≠ '.')).drop 1)).reverse⟩
  else name

/-- The alpha-flattening branch shared by `optimize_image` and
`create_thumbnail`: for modes `RGBA`, `LA`, `P` the image is pasted onto a
fresh opaque white `RGB` background of the same size (`Image.new('RGB',
img.size, (255, 255, 255))`), so the result has mode `RGB`; other modes
pass through. -/
def flattenWhite (img : PImage) : PImage :=
  if img.mode = .RGBA ∨ img.mode = .LA ∨ img.mode = .P then
    { img with mode := .RGB }
  else img

/-- Round `num / den` to the nearest integer, ties toward the floor — the
rounding `PIL.Image.thumbnail`'s `round_aspect` performs on the rescaled
dimension (it picks whichever of floor and ceiling best restores the exact
aspect ratio, preferring the floor on a tie). -/
def roundNearest (num den : Nat) : Nat :=
  if 2 * (num % den) > den then num / den + 1 else num / den

/-- `PIL.Image.thumbnail((maxW, maxH), LANCZOS)` on the dimensions: images
already inside the box are left alone; otherwise the image is scaled down
preserving aspect ratio so that it fits the box — the binding dimension is
set to the box bound and the other is the aspect-exact value rounded to the
nearest integer and clamped to at least 1 pixel. -/
def pilThumbnail (w h maxW maxH : Nat) : Nat × Nat :=
  if w ≤ maxW ∧ h ≤ maxH then (w, h)
  else if maxH * w ≤ maxW * h then
    (max 1 (roundNearest (maxH * w) h), maxH)
  else
    (maxW, max 1 (roundNearest (maxW * h) w))

/-- `Article.optimize_image(image_field, max_size, quality)`: decode, flatten
alpha onto white, bound the dimensions by `max_size`, re-encode as JPEG at
`quality` into an in-memory upload named `{stem}_optimized.jpg`.  Any
exception (in particular a failed decode of a corrupted file) is caught,
logged with `print`, and the untouched `image_field` is returned. -/
def optimize_image (f : UploadFile) (maxW maxH quality : Nat) : UploadFile :=
  match f.content with
  | none => f
  | some img =>
      let flat := flattenWhite img
      let dims := pilThumbnail flat.width flat.height maxW maxH
      { name := splitextStem f.name ++ "_optimized.jpg"
        content := some { mode := flat.mode, width := dims.1, height := dims.2 }
        quality := some quality
        hasFileAttr := true }

/-- `Article.create_thumbnail(image_field, size, quality)`: same decode /
flatten / bound / re-encode sequence with the thumbnail box and quality,
named `{stem}_thumb.jpg`; on any exception it is caught, logged, and `None`
is returned (no thumbnail produced). -/
def create_thumbnail (f : UploadFile) (maxW maxH quality : Nat) :
    Option UploadFile :=
  match f.content with
  | none => none
  | some img =>
      let flat := flattenWhite img
      let dims := pilThumbnail flat.width flat.height maxW maxH
      some { name := splitextStem f.name ++ "_thumb.jpg"
             content := some { mode := flat.mode, width := dims.1, height := dims.2 }
             quality := some quality
             hasFileAttr := true }

/-- One image slot of `Article.save`: when the field is truthy
(`self.image`, i.e. a non-empty slot) and `hasattr(self.image, 'file')`
holds, the slot is replaced by its optimized variant and the paired
thumbnail slot by `create_thumbnail` of that optimized variant; otherwise
both slots are left as they were. -/
def saveSlot (img thumb : Option UploadFile) :
    Option UploadFile × Option UploadFile :=
  match img with
  | none => (none, thumb)
  | some f =>
      if f.hasFileAttr then
        let opt := optimize_image f 1200 1200 85
        (some opt, create_thumbnail opt 300 300 80)
      else (some f, thumb)

/-- `Article.save`: run the slot pipeline on each of the three image slots
(`image`, `image1`, `image2` with max size `(1200, 1200)` / quality 85 and
thumbnails at `(300, 300)`), then persist the row via `super().save()`.
The pipeline itself never raises, so the row always persists. -/
def Article.save (a : Article) : Article :=
  let s0 := saveSlot a.image a.image_thumbnail
  let s1 := saveSlot a.image1 a.image1_thumbnail
  let s2 := saveSlot a.image2 a.image2_thumbnail
  { a with
    image := s0.1, image_thumbnail := s0.2
    image1 := s1.1, image1_thumbnail := s1.2
    image2 := s2.1, image2_thumbnail := s2.2 }

/-- What a stored image file looks like when the row is later loaded from
the database: the stored name and bytes are unchanged, and
`hasattr(field, 'file')` is again true — Django's `FieldFile.file` property
opens `self.storage.open(self.name)` on access, which succeeds for a
persisted, accessible file, and `hasattr` only converts `AttributeError`
(never raised here) into `False`. -/
def persistFile (f : UploadFile) : UploadFile :=
  { f with hasFileAttr := true }

/-- A persisted `Article` row as a later request loads it from the
database: every stored file field again satisfies `hasattr(field, 'file')`
(see `persistFile`); all scalar columns are unchanged. -/
def Article.reload (a : Article) : Article :=
  { a with
    image := a.image.map persistFile
    image1 := a.image1.map persistFile
    image2 := a.image2.map persistFile
    image_thumbnail := a.image_thumbnail.map persistFile
    image1_thumbnail := a.image1_thumbnail.map persistFile
    image2_thumbnail := a.image2_thumbnail.map persistFile }

/-!
## Catalog query layer (`root/views.py`)
-/

/-- The OR-combined case-insensitive substring match used both by the
`/recherche/` view (`Q(modele__icontains=q) |
Q(marque__nom_marque__icontains=q) | Q(categorie__nom__icontains=q)`) and by
DRF SearchFilter on `search_fields = ['modele', 'marque__nom_marque',
'categorie__nom']`.  A null `categorie` FK matches nothing (a SQL `LIKE`
against the NULL of the left join is not true). -/
def matchesSearch (a : Article) (q : String) : Bool :=
  icontains a.modele q || icontains a.marque.nom_marque q ||
    (match a.categorie with
     | some c => icontains c.nom q
     | none => false)

/-- `ArticlePagination.get_page_size` (DRF `PageNumberPagination` with
`page_size = 12`, `page_size_query_param = 'page_size'`,
`max_page_size = 50`): a missing, non-numeric, zero or negative
`page_size` parameter falls back to 12; a positive one is capped at 50
(`_positive_int(..., strict=True, cutoff=max_page_size)`). -/
def get_page_size (req : Request) : Nat :=
  match req.getParam "page_size" with
  | none => 12
  | some s =>
      match pyInt? s with
      | none => 12
      | some n => if n ≤ 0 then 12 else min n.toNat 50

/-- The requested page number (`page` parameter, default 1); a
non-positive or non-numeric value is modelled as page 1 — the paginator
404s there, which no claim exercises. -/
def get_page_number (req : Request) : Nat :=
  match req.getParam "page" with
  | none => 1
  | some s =>
      match pyInt? s with
      | none => 1
      | some n => if n ≤ 0 then 1 else n.toNat

/-- `paginator.paginate_queryset(qs, request)`: the rows of the requested
page — Django slices `[(number-1)*per_page : number*per_page]`. -/
def paginate_queryset (req : Request) (l : List Article) : List Article :=
  let ps := get_page_size req
  (l.drop ((get_page_number req - 1) * ps)).take ps

/-- `queryset.filter(prix__gte=prix_min)` when the `prix_min` parameter is
truthy; `none` models the `ValidationError` Django raises on a
non-numeric bound (integer prices suffice for every claim).  The untouched
queryset passes through when the parameter is absent or empty. -/
def applyPrixGte (param : Option String) (qs : List Article) :
    Option (List Article) :=
  if pyTruthy param then
    match pyInt? (param.getD "") with
    | some n => some (qs.filter (fun a => n ≤ a.prix))
    | none => none
  else some qs

/-- `queryset.filter(prix__lte=prix_max)`, as `applyPrixGte`. -/
def applyPrixLte (param : Option String) (qs : List Article) :
    Option (List Article) :=
  if pyTruthy param then
    match pyInt? (param.getD "") with
    | some n => some (qs.filter (fun a => a.prix ≤ n))
    | none => none
  else some qs

/-- `queryset.filter(marque__nom_marque__iexact=marque)` when the `marque`
parameter is truthy; the untouched queryset otherwise. -/
def applyMarqueFilter (param : Option String) (qs : List Article) :
    List Article :=
  if pyTruthy param then
    qs.filter (fun a => iexact a.marque.nom_marque (param.getD ""))
  else qs

/-- `queryset.filter(categorie__nom__icontains=categorie)` when the
`categorie` parameter is truthy; a null category FK matches nothing. -/
def applyCategorieFilter (param : Option String) (qs : List Article) :
    List Article :=
  if pyTruthy param then
    qs.filter (fun a =>
      match a.categorie with
      | some c => icontains c.nom (param.getD "")
      | none => false)
  else qs

/-- `apiArticle.get_queryset`: the tenant scoping first
(`filter_queryset_by_client`), then the optional `marque` (iexact),
`categorie` (icontains), `prix_min` and `prix_max` filters from the query
string.  The base queryset arrives in the model's `Meta.ordering`
(`['-date_ajout']`), which the embedding models by reading `db` in that
order.  `none` models the `ValidationError` of a non-numeric price
bound. -/
def apiArticle_get_queryset (clients : List Client) (req : Request)
    (db : List Article) : Option (List Article) :=
  (applyPrixGte (req.getParam "prix_min")
      (applyCategorieFilter (req.getParam "categorie")
        (applyMarqueFilter (req.getParam "marque")
          (filter_queryset_by_client clients req db)))).bind
    (applyPrixLte (req.getParam "prix_max"))

/-- `apiArticle.featured`: `self.get_queryset()[:8]` — the first 8 rows of
the view's queryset (no paginator, no filter backends). -/
def featured (clients : List Client) (req : Request) (db : List Article) :
    Option (List Article) :=
  (apiArticle_get_queryset clients req db).map (fun qs => qs.take 8)

/-- DRF `SearchFilter.get_search_terms`: the `search` parameter with commas
turned into spaces, split on whitespace runs. -/
def searchTermsAux : List Char → List Char → List String
  | [], acc => if acc.isEmpty then [] else [⟨acc.reverse⟩]
  | c :: cs, acc =>
      if isSpaceChar c then
        if acc.isEmpty then searchTermsAux cs []
        else (⟨acc.reverse⟩ : String) :: searchTermsAux cs []
      else searchTermsAux cs (c :: acc)

/-- The search terms of the `search` query parameter (see
`searchTermsAux`). -/
def searchTerms (q : String) : List String :=
  searchTermsAux (q.data.map (fun c => if c = ',' then ' ' else c)) []

/-- DRF `SearchFilter.filter_queryset` on this view's `search_fields`: each
term must match (terms are AND-combined, each an OR across the three
fields), and the result is made distinct because the searched fields cross
to-one relations. -/
def applySearchFilter (req : Request) (qs : List Article) : List Article :=
  match req.getParam "search" with
  | none => qs
  | some q =>
      let terms := searchTerms q
      if terms.isEmpty then qs
      else
        (terms.foldl (fun acc t => acc.filter (fun a => matchesSearch a t))
          qs).dedup

/-- Insert into a `le`-sorted list (helper for the ordering backend). -/
def insertLe {α : Type} (le : α → α → Bool) (x : α) : List α → List α
  | [] => [x]
  | y :: ys => if le x y then x :: y :: ys else y :: insertLe le x ys

/-- Insertion sort by a boolean `le` (the embedding of `order_by`). -/
def sortLe {α : Type} (le : α → α → Bool) : List α → List α
  | [] => []
  | x :: xs => insertLe le x (sortLe le xs)

/-- The comparison `order_by(*fields)` induces on two articles for this
view's `ordering_fields = ['prix', 'date_ajout', 'modele']`, optionally
`-`-prefixed; later fields break ties. -/
def orderKeyLe (fields : List String) (a b : Article) : Bool :=
  match fields with
  | [] => true
  | f :: rest =>
      let o : Ordering :=
        if f = "prix" then compare a.prix b.prix
        else if f = "-prix" then compare b.prix a.prix
        else if f = "date_ajout" then compare a.date_ajout b.date_ajout
        else if f = "-date_ajout" then compare b.date_ajout a.date_ajout
        else if f = "modele" then compare a.modele b.modele
        else if f = "-modele" then compare b.modele a.modele
        else Ordering.eq
      match o with
      | .lt => true
      | .gt => false
      | .eq => orderKeyLe rest a b

/-- DRF `OrderingFilter.get_ordering`: the comma-separated `ordering`
parameter, trimmed, restricted to the declared `ordering_fields` (with
optional `-`); when nothing valid remains, the view's default
`ordering = ['-date_ajout']`. -/
def requestOrdering (req : Request) : List String :=
  match req.getParam "ordering" with
  | none => ["-date_ajout"]
  | some p =>
      let fields := (searchTermsAux (p.data.map
        (fun c => if c = ',' then ' ' else c)) []).map pyStrip
      let valid := fields.filter (fun f =>
        ["prix", "date_ajout", "modele"].contains
          (match f.data with
           | '-' :: rest => (⟨rest⟩ : String)
           | _ => f))
      if valid.isEmpty then ["-date_ajout"] else valid

/-- DRF `OrderingFilter.filter_queryset`: `queryset.order_by(*ordering)`. -/
def applyOrdering (req : Request) (qs : List Article) : List Article :=
  sortLe (orderKeyLe (requestOrdering req)) qs

/-- The article list endpoint (`GET /articles/`): the view's queryset, the
two filter backends (search, then ordering), then one page. -/
def articleList (clients : List Client) (req : Request)
    (db : List Article) : Option (List Article) :=
  (apiArticle_get_queryset clients req db).map (fun qs =>
    paginate_queryset req (applyOrdering req (applySearchFilter req qs)))

/-- `Filtreur.get` (`GET /filtrer/?categorie=...`): tenant scoping, then —
unless the parameter (default `'all'`) lower-cases to `all`/`tout`/
`catalogue` — the category filter `Q(categorie__nom__icontains=clean) |
Q(categorie__nom__iexact=clean)` with underscores turned into spaces, then
one page. -/
def filtreur (clients : List Client) (req : Request) (db : List Article) :
    List Article :=
  let categorieParam := (req.getParam "categorie").getD "all"
  let articles := filter_queryset_by_client clients req db
  let articles :=
    if ["all", "tout", "catalogue"].contains (lowerStr categorieParam) then
      articles
    else
      let clean : String :=
        ⟨categorieParam.data.map (fun c => if c = '_' then ' ' else c)⟩
      articles.filter (fun a =>
        match a.categorie with
        | some c => icontains c.nom clean || iexact c.nom clean
        | none => false)
  paginate_queryset req articles

/-- The two shapes of a `/recherche/` response: the 400 error payload —
`err` the `'error'` entry, `hint` the `'example'` usage entry — or a page
of articles. -/
inductive SearchResult where
  | badRequest (err hint : String)
  | ok (page : List Article)
  deriving DecidableEq, Repr

/-- The queryset `RechercheArticles.get` builds for a non-empty term: the
three-field OR search, `.distinct()`, tenant scoping, then the optional
`marque` and `prix_max` filters (`none` models the `ValidationError` of a
non-numeric `prix_max`). -/
def rechercheQueryset (clients : List Client) (req : Request)
    (db : List Article) : Option (List Article) :=
  applyPrixLte (req.getParam "prix_max")
    (applyMarqueFilter (req.getParam "marque")
      (filter_queryset_by_client clients req
        ((db.filter (fun a =>
          matchesSearch a (pyStrip ((req.getParam "q").getD "")))).dedup)))

/-- `RechercheArticles.get` (`GET /recherche/?q=...`): a blank term is a
400 with the usage example; otherwise one page of `rechercheQueryset`. -/
def recherche (clients : List Client) (req : Request) (db : List Article) :
    Option SearchResult :=
  if pyStrip ((req.getParam "q").getD "") = "" then
    some (SearchResult.badRequest "Le paramètre \"q\" est requis"
      "/recherche/?q=iphone")
  else
    (rechercheQueryset clients req db).map (fun qs =>
      SearchResult.ok (paginate_queryset req qs))

/-!
## Serializers (`root/serializer.py`)
-/

/-- A JSON value, as far as the response shapes need one. -/
inductive JVal where
  | s (v : String)
  | n (v : Int)
  | null
  | obj (fields : List (String × JVal))
  deriving Repr

/-- The keys of a JSON object (empty for non-objects). -/
def objKeys : JVal → List String
  | .obj kvs => kvs.map Prod.fst
  | _ => []

/-- The keys of a JSON object together with the keys of its directly nested
objects — deep enough for the two-level article representations. -/
def objKeysDeep : JVal → List String
  | .obj kvs => kvs.map Prod.fst ++ kvs.flatMap (fun kv => objKeys kv.2)
  | _ => []

/-- `CategorieSerializer`: `fields = ('id', 'nom')` — the `client` column
is excluded from the public representation. -/
def CategorieSerializer (c : Categorie) : JVal :=
  .obj [("id", .n c.id), ("nom", .s c.nom)]

/-- `MarqueSerializer`: `fields = ('id', 'nom_marque', 'logo')` — the
`client` column is excluded from the public representation. -/
def MarqueSerializer (m : Marque) : JVal :=
  .obj [("id", .n m.id), ("nom_marque", .s m.nom_marque), ("logo", .s m.logo)]

/-- Modelled from the spec: `Article.get_image_thumbnail_url` is called by
every article serializer in `root/serializer.py` but is not defined in the
committed `root/models.py` (which carries the local-transcoding variant
without the URL helpers).  Per the spec's Strategy B it is a parameterized
300×300 fill-crop transformation URL with automatic quality/format over the
stored reference of the primary image slot, resolving to nothing when the
slot is empty. -/
def get_image_thumbnail_url (a : Article) : Option String :=
  a.image.map (fun f =>
    "image/upload/c_fill,w_300,h_300,q_auto,f_auto/" ++ f.name)

/-- An optional nested row rendered by a nested serializer: JSON null when
the FK is null. -/
def jOpt {α : Type} (ser : α → JVal) : Option α → JVal
  | some x => ser x
  | none => JVal.null

/-- An optional scalar: JSON null when the column is NULL. -/
def jOptInt : Option Int → JVal
  | some v => .n v
  | none => JVal.null

/-- An optional string (image locator): JSON null when absent. -/
def jOptStr : Option String → JVal
  | some v => .s v
  | none => JVal.null

/-- `ArticleListSerializer` — the list tier: `fields = ('id', 'modele',
'marque', 'categorie', 'image_thumbnail', 'prix', 'ram', 'stokcage')`, with
`marque` and `categorie` nested read-only serializers and
`image_thumbnail` a `SerializerMethodField` over
`get_image_thumbnail_url`. -/
def ArticleListSerializer (a : Article) : JVal :=
  .obj
    [ ("id", .n a.id)
    , ("modele", .s a.modele)
    , ("marque", MarqueSerializer a.marque)
    , ("categorie", jOpt CategorieSerializer a.categorie)
    , ("image_thumbnail", jOptStr (get_image_thumbnail_url a))
    , ("prix", .n a.prix)
    , ("ram", jOptInt a.ram)
    , ("stokcage", jOptInt a.stokcage) ]

/-!
## Helper lemmas
-/

/-- Rounding a quotient to the nearest integer cannot exceed an integer
bound on the exact quotient. -/
theorem roundNearest_le (num den b : Nat) (hden : 0 < den)
    (hle : num ≤ b * den) : roundNearest num den ≤ b := by
  have hdiv : num / den ≤ b := by
    have h := Nat.div_le_div_right (c := den) hle
    rwa [Nat.mul_div_cancel _ hden] at h
  unfold roundNearest
  split
  · rename_i hgt
    rcases Nat.lt_or_ge (num / den) b with h | h
    · exact h
    · have heq : num / den = b := le_antisymm hdiv h
      have hge : b * den ≤ num := by
        have h2 := Nat.div_mul_le_self num den
        rwa [heq] at h2
      have hnum : num = b * den := le_antisymm hle hge
      rw [hnum, Nat.mul_mod_left] at hgt
      simp at hgt
  · exact hdiv

/-- The dimensions `PIL.Image.thumbnail` produces are positive and bounded
by the requested box. -/
theorem pilThumbnail_bounds (w h maxW maxH : Nat) (hw : 0 < w) (hh : 0 < h)
    (hW : 0 < maxW) (hH : 0 < maxH) :
    0 < (pilThumbnail w h maxW maxH).1 ∧
      (pilThumbnail w h maxW maxH).1 ≤ maxW ∧
      0 < (pilThumbnail w h maxW maxH).2 ∧
      (pilThumbnail w h maxW maxH).2 ≤ maxH := by
  unfold pilThumbnail
  split
  · rename_i hin
    exact ⟨hw, hin.1, hh, hin.2⟩
  · split
    · rename_i hle
      refine ⟨le_max_left 1 _, ?_, hH, le_refl _⟩
      exact max_le hW (roundNearest_le _ _ _ hh hle)
    · rename_i hgt
      refine ⟨hW, le_refl _, le_max_left 1 _, ?_⟩
      exact max_le hH (roundNearest_le _ _ _ hw (Nat.le_of_not_le hgt))

/-- Flattening onto the white background leaves no alpha-carrying mode. -/
theorem flattenWhite_opaque (img : PImage) :
    ((flattenWhite img).mode).carriesAlpha = false := by
  rcases img with ⟨m, w, h⟩
  cases m <;> rfl

/-- Flattening preserves the pixel width (`Image.new('RGB', img.size)`). -/
theorem flattenWhite_width (img : PImage) :
    (flattenWhite img).width = img.width := by
  unfold flattenWhite; split <;> rfl

/-- Flattening preserves the pixel height. -/
theorem flattenWhite_height (img : PImage) :
    (flattenWhite img).height = img.height := by
  unfold flattenWhite; split <;> rfl

/-!
## Concrete fixtures (for witnesses and counterexamples)
-/

/-- An active registered tenant. -/
def clientA : Client :=
  { id := 1, nom := "Acme", domaine := "https://acme.example", actif := true }

/-- An inactive registered tenant. -/
def clientB : Client :=
  { id := 2, nom := "Beta", domaine := "https://beta.example", actif := false }

/-- A brand of tenant 1. -/
def marqueA : Marque :=
  { id := 1, clientId := 1, nom_marque := "Apple", logo := "apple.png" }

/-- A second brand of tenant 1. -/
def marqueS : Marque :=
  { id := 2, clientId := 1, nom_marque := "Samsung", logo := "samsung.png" }

/-- A category of tenant 1. -/
def categorieA : Categorie := { id := 1, clientId := 1, nom := "Telephone" }

/-- A fresh RGBA upload, 2000 by 1500 pixels. -/
def fileA : UploadFile :=
  { name := "photo.png"
    content := some { mode := PMode.RGBA, width := 2000, height := 1500 }
    quality := none
    hasFileAttr := true }

/-- A corrupted upload: `Image.open` cannot decode it. -/
def fileBad : UploadFile :=
  { name := "broken.jpg", content := none, quality := none, hasFileAttr := true }

/-- An article of tenant 1 with brand Apple (newest). -/
def articleA : Article :=
  { id := 1
    clientId := 1
    marque := marqueA
    categorie := some categorieA
    modele := "iPhone 12"
    prix := 300
    stokcage := some 128
    ram := some 4
    image := some fileA
    image1 := none
    image2 := none
    image_thumbnail := none
    image1_thumbnail := none
    image2_thumbnail := none
    date_ajout := 9 }

/-- An article of tenant 1 with brand Samsung (older). -/
def articleS : Article :=
  { id := 2
    clientId := 1
    marque := marqueS
    categorie := some categorieA
    modele := "Galaxy S21"
    prix := 250
    stokcage := some 256
    ram := some 8
    image := none
    image1 := none
    image2 := none
    image_thumbnail := none
    image1_thumbnail := none
    image2_thumbnail := none
    date_ajout := 4 }

/-- An article belonging to the other tenant (id 2). -/
def articleOther : Article :=
  { id := 3
    clientId := 2
    marque := { id := 3, clientId := 2, nom_marque := "Apple", logo := "a.png" }
    categorie := none
    modele := "iPhone 11"
    prix := 200
    stokcage := none
    ram := none
    image := none
    image1 := none
    image2 := none
    image_thumbnail := none
    image1_thumbnail := none
    image2_thumbnail := none
    date_ajout := 7 }

/-- The registered tenant table of the fixtures. -/
def clientsW : List Client := [clientA, clientB]

/-- The article table of the fixtures (newest first, the default
`Meta.ordering`). -/
def dbW : List Article := [articleA, articleOther, articleS]

/-- A request whose origin header names the inactive tenant's domain. -/
def reqInactive : Request :=
  { httpOrigin := some "https://beta.example", httpReferer := none
    queryParams := [] }

/-- A request whose origin header names the active tenant's domain. -/
def reqAcme : Request :=
  { httpOrigin := some "https://acme.example/", httpReferer := none
    queryParams := [] }

/-!
## C1
-/

/-- C1: for every public API request whose origin resolves to no active
matching tenant — origin and referrer both absent, the derived origin
matching no registered tenant domain, or matching only an inactive tenant's
domain (the hypothesis covers all three: no registered tenant is both
active and named by the resolved origin) — the tenant-scoped query returns
the empty result set, raising nothing and returning no tenant's rows. -/
theorem c1_unresolved_origin_empty (clients : List Client) (req : Request)
    (qs : List Article)
    (h : ∀ c ∈ clients, req.resolvedOrigin = some c.domaine →
      c.actif = false) :
    filter_queryset_by_client clients req qs = [] := by
  have hnone : get_client_from_request clients req = none := by
    unfold get_client_from_request
    cases hro : req.resolvedOrigin with
    | none => rfl
    | some o =>
        apply List.find?_eq_none.mpr
        intro c hc hpred
        rw [Bool.and_eq_true, beq_iff_eq] at hpred
        have hact := h c hc (by rw [hro, hpred.1])
        rw [hact] at hpred
        exact Bool.false_ne_true hpred.2
  unfold filter_queryset_by_client
  rw [hnone]

/-- C1 witness: the fixture request carrying the inactive tenant's domain
scopes the fixture table to nothing. -/
theorem c1_witness :
    filter_queryset_by_client clientsW reqInactive dbW = [] :=
  c1_unresolved_origin_empty clientsW reqInactive dbW (by decide)

/-!
## C2
-/

/-- C2: for every admin read operation through the mixin, a superuser gets
all rows unfiltered, a non-elevated principal linked to tenant `c` gets
exactly the rows whose tenant reference equals `c`, and a non-elevated
principal with no linked tenant gets the empty set. -/
theorem c2_admin_read_scoping {α : Type} (clientIdOf : α → Nat)
    (user : AdminUser) (qs : List α) :
    (user.is_superuser = true →
      admin_get_queryset clientIdOf user qs = qs) ∧
    (∀ c, user.is_superuser = false → user.client = some c →
      ∀ r, r ∈ admin_get_queryset clientIdOf user qs ↔
        r ∈ qs ∧ clientIdOf r = c.id) ∧
    (user.is_superuser = false → user.client = none →
      admin_get_queryset clientIdOf user qs = []) := by
  refine ⟨fun hsu => ?_, fun c hsu hc r => ?_, fun hsu hc => ?_⟩
  · simp [admin_get_queryset, hsu]
  · simp [admin_get_queryset, hsu, hc, List.mem_filter]
  · simp [admin_get_queryset, hsu, hc]

/-!
## C3
-/

/-- C3: when a non-elevated principal linked to tenant `c` creates an
object, the persisted object's tenant reference is stamped to `c`
regardless of any caller-supplied value, and the `client` field is absent
from every field list the principal's form can show. -/
theorem c3_create_stamps_tenant (user : AdminUser) (c : Client)
    (hsu : user.is_superuser = false) (hlink : user.client = some c)
    (obj : PendingObj) (fields : List String) :
    (save_model user obj false).clientId = some c.id ∧
    "client" ∉ admin_get_fields user fields := by
  constructor
  · simp [save_model, hsu, hlink]
  · unfold admin_get_fields
    split
    · intro hmem
      have hf := (List.mem_filter.mp hmem).2
      simp at hf
    · rename_i hcond
      rw [hsu] at hcond
      simp at hcond
      intro hmem
      exact hcond hmem

/-- A non-elevated admin principal linked to the active fixture tenant. -/
def userA : AdminUser := { is_superuser := false, client := some clientA }

/-- C3 witness: creating through the fixture principal stamps tenant 1 on
an object that arrived with no tenant, and the `client` field is dropped
from a form listing it. -/
theorem c3_witness :
    (save_model userA { clientId := none } false).clientId =
      some clientA.id ∧
    "client" ∉ admin_get_fields userA ["nom", "client"] :=
  c3_create_stamps_tenant userA clientA rfl rfl { clientId := none }
    ["nom", "client"]

/-!
## C4
-/

/-- The keys of an optional-string field's value: never an object. -/
theorem objKeys_jOptStr (v : Option String) : objKeys (jOptStr v) = [] := by
  cases v <;> rfl

/-- The keys of an optional-integer field's value: never an object. -/
theorem objKeys_jOptInt (v : Option Int) : objKeys (jOptInt v) = [] := by
  cases v <;> rfl

/-- C4: for every Article, the list-tier representation carries exactly
the keys id, model name, brand (a nested object with id and name),
category (a nested object with id and name when the FK is set), a
thumbnail locator and the price, memory and storage columns — and the
tenant (`client`) key appears nowhere, at either nesting level. -/
theorem c4_list_tier_shape (a : Article) :
    objKeys (ArticleListSerializer a) =
      ["id", "modele", "marque", "categorie", "image_thumbnail", "prix",
        "ram", "stokcage"] ∧
    objKeys (MarqueSerializer a.marque) = ["id", "nom_marque", "logo"] ∧
    (∀ c, a.categorie = some c →
      objKeys (CategorieSerializer c) = ["id", "nom"]) ∧
    "client" ∉ objKeysDeep (ArticleListSerializer a) := by
  refine ⟨rfl, rfl, fun c _ => rfl, ?_⟩
  rcases a with ⟨i, ci, mq, cat, mo, px, st, rm, im, i1, i2, t0, t1, t2, da⟩
  cases cat <;> cases im <;> cases st <;> cases rm <;>
    simp [ArticleListSerializer, MarqueSerializer, CategorieSerializer,
      objKeysDeep, objKeys, jOpt, jOptStr, jOptInt, get_image_thumbnail_url]

/-!
## C5
-/

/-- What the claim asks of the optimized variant derived from `src`: JPEG
quality 85, the `_optimized` filename suffix on the source's stem, and an
opaque (alpha-free) image with both dimensions at most 1200 (and positive,
so the thumbnail pass can run on it). -/
def OptimizedOk (src opt : UploadFile) : Prop :=
  opt.quality = some 85 ∧
  opt.name = splitextStem src.name ++ "_optimized.jpg" ∧
  ∃ oimg, opt.content = some oimg ∧ oimg.mode.carriesAlpha = false ∧
    0 < oimg.width ∧ oimg.width ≤ 1200 ∧ 0 < oimg.height ∧
    oimg.height ≤ 1200

/-- What the claim asks of the thumbnail derived from `src`: JPEG quality
80, the `_thumb` filename suffix on the source's stem, and an opaque image
with both dimensions at most 300. -/
def ThumbOk (src thumb : UploadFile) : Prop :=
  thumb.quality = some 80 ∧
  thumb.name = splitextStem src.name ++ "_thumb.jpg" ∧
  ∃ timg, thumb.content = some timg ∧ timg.mode.carriesAlpha = false ∧
    timg.width ≤ 300 ∧ timg.height ≤ 300

/-- `optimize_image` on a decodable source of any mode meets the
optimized-variant contract. -/
theorem optimize_image_ok (f : UploadFile) (img : PImage)
    (hdec : f.content = some img) (hw : 0 < img.width)
    (hh : 0 < img.height) :
    OptimizedOk f (optimize_image f 1200 1200 85) := by
  obtain ⟨hb1, hb2, hb3, hb4⟩ :=
    pilThumbnail_bounds (flattenWhite img).width (flattenWhite img).height
      1200 1200 (by rw [flattenWhite_width]; exact hw)
      (by rw [flattenWhite_height]; exact hh) (by norm_num) (by norm_num)
  refine ⟨?_, ?_, ?_⟩
  · simp [optimize_image, hdec]
  · simp [optimize_image, hdec]
  · refine ⟨{ mode := (flattenWhite img).mode
              width := (pilThumbnail (flattenWhite img).width
                (flattenWhite img).height 1200 1200).1
              height := (pilThumbnail (flattenWhite img).width
                (flattenWhite img).height 1200 1200).2 },
      by simp [optimize_image, hdec], flattenWhite_opaque img,
      hb1, hb2, hb3, hb4⟩

/-- `create_thumbnail` on a decodable source meets the thumbnail
contract. -/
theorem create_thumbnail_ok (g : UploadFile) (oimg : PImage)
    (hdec : g.content = some oimg) (hw : 0 < oimg.width)
    (hh : 0 < oimg.height) :
    ∃ thumb, create_thumbnail g 300 300 80 = some thumb ∧
      ThumbOk g thumb := by
  obtain ⟨hb1, hb2, hb3, hb4⟩ :=
    pilThumbnail_bounds (flattenWhite oimg).width (flattenWhite oimg).height
      300 300 (by rw [flattenWhite_width]; exact hw)
      (by rw [flattenWhite_height]; exact hh) (by norm_num) (by norm_num)
  refine ⟨{ name := splitextStem g.name ++ "_thumb.jpg"
            content := some { mode := (flattenWhite oimg).mode
                              width := (pilThumbnail (flattenWhite oimg).width
                                (flattenWhite oimg).height 300 300).1
                              height := (pilThumbnail (flattenWhite oimg).width
                                (flattenWhite oimg).height 300 300).2 }
            quality := some 80
            hasFileAttr := true },
    by simp [create_thumbnail, hdec], rfl, rfl, ?_⟩
  exact ⟨_, rfl, flattenWhite_opaque oimg, hb2, hb4⟩

/-- C5: saving an Article with a new decodable original image of any
supported mode (alpha-carrying modes included) stores, in its slot, an
optimized variant that is opaque with both dimensions at most 1200, JPEG
quality 85 and the `_optimized` filename suffix, and stores in the paired
slot a thumbnail with both dimensions at most 300, JPEG quality 80 and the
`_thumb` suffix. -/
theorem c5_image_derivation (a : Article) (f : UploadFile) (img : PImage)
    (ha : a.image = some f) (hdec : f.content = some img)
    (hnew : f.hasFileAttr = true) (hw : 0 < img.width)
    (hh : 0 < img.height) :
    a.save.image = some (optimize_image f 1200 1200 85) ∧
    a.save.image_thumbnail =
      create_thumbnail (optimize_image f 1200 1200 85) 300 300 80 ∧
    OptimizedOk f (optimize_image f 1200 1200 85) ∧
    ∃ thumb,
      create_thumbnail (optimize_image f 1200 1200 85) 300 300 80 =
        some thumb ∧
      ThumbOk (optimize_image f 1200 1200 85) thumb := by
  have hslot : saveSlot a.image a.image_thumbnail =
      (some (optimize_image f 1200 1200 85),
        create_thumbnail (optimize_image f 1200 1200 85) 300 300 80) := by
    rw [ha]
    simp [saveSlot, hnew]
  have hok := optimize_image_ok f img hdec hw hh
  obtain ⟨oimg, hcont, _, hw1, _, hh1, _⟩ := hok.2.2
  refine ⟨?_, ?_, hok, create_thumbnail_ok _ oimg hcont hw1 hh1⟩
  · show (saveSlot a.image a.image_thumbnail).1 =
      some (optimize_image f 1200 1200 85)
    rw [hslot]
  · show (saveSlot a.image a.image_thumbnail).2 =
      create_thumbnail (optimize_image f 1200 1200 85) 300 300 80
    rw [hslot]

/-- C5 witness: saving the fixture article, whose slot holds a fresh
2000 by 1500 RGBA upload, produces the contracted optimized variant and
thumbnail. -/
theorem c5_witness :
    articleA.save.image = some (optimize_image fileA 1200 1200 85) ∧
    articleA.save.image_thumbnail =
      create_thumbnail (optimize_image fileA 1200 1200 85) 300 300 80 ∧
    OptimizedOk fileA (optimize_image fileA 1200 1200 85) ∧
    ∃ thumb,
      create_thumbnail (optimize_image fileA 1200 1200 85) 300 300 80 =
        some thumb ∧
      ThumbOk (optimize_image fileA 1200 1200 85) thumb :=
  c5_image_derivation articleA fileA
    { mode := PMode.RGBA, width := 2000, height := 1500 } rfl rfl rfl
    (by decide) (by decide)

/-!
## C6
-/

/-- C6: saving an Article whose original slot holds a corrupted,
undecodable upload still persists the row (the scalar columns all reach
the store unchanged): the optimized slot falls back to the raw upload
itself and the thumbnail slot becomes null, the decode failures having
been logged and swallowed. -/
theorem c6_corrupted_fallback (a : Article) (f : UploadFile)
    (ha : a.image = some f) (hbad : f.content = none)
    (hfile : f.hasFileAttr = true) :
    a.save.image = some f ∧ a.save.image_thumbnail = none ∧
    a.save.clientId = a.clientId ∧ a.save.modele = a.modele ∧
    a.save.prix = a.prix ∧ a.save.marque = a.marque := by
  have hopt : optimize_image f 1200 1200 85 = f := by
    simp [optimize_image, hbad]
  have hth : create_thumbnail f 300 300 80 = none := by
    simp [create_thumbnail, hbad]
  have hslot : saveSlot a.image a.image_thumbnail = (some f, none) := by
    rw [ha]
    simp [saveSlot, hfile, hopt, hth]
  refine ⟨?_, ?_, rfl, rfl, rfl, rfl⟩
  · show (saveSlot a.image a.image_thumbnail).1 = some f
    rw [hslot]
  · show (saveSlot a.image a.image_thumbnail).2 = none
    rw [hslot]

/-- An article of tenant 1 whose primary slot holds the corrupted
upload. -/
def articleBad : Article :=
  { id := 4
    clientId := 1
    marque := marqueA
    categorie := none
    modele := "Broken"
    prix := 10
    stokcage := none
    ram := none
    image := some fileBad
    image1 := none
    image2 := none
    image_thumbnail := none
    image1_thumbnail := none
    image2_thumbnail := none
    date_ajout := 2 }

/-- C6 witness: the fixture article with the corrupted upload saves with
the raw file kept in the optimized slot and no thumbnail. -/
theorem c6_witness :
    articleBad.save.image = some fileBad ∧
    articleBad.save.image_thumbnail = none ∧
    articleBad.save.clientId = articleBad.clientId ∧
    articleBad.save.modele = articleBad.modele ∧
    articleBad.save.prix = articleBad.prix ∧
    articleBad.save.marque = articleBad.marque :=
  c6_corrupted_fallback articleBad fileBad rfl rfl rfl

/-!
## C7
-/

/-- C7: the claim fails on the code.  Re-saving a persisted Article without
supplying a new upload re-derives the unchanged slot: after the first save
persists `photo_optimized.jpg`, a reload-and-save cycle replaces the slot
with `photo_optimized_optimized.jpg` and re-derives the thumbnail, because
`self.image and hasattr(self.image, 'file')` is also true for a stored
file the storage can open — the derivation is not idempotent on unchanged
input. -/
theorem c7_resave_rederives :
    articleA.save.reload.save.image ≠ articleA.save.reload.image ∧
    articleA.save.reload.save.image_thumbnail ≠
      articleA.save.reload.image_thumbnail ∧
    articleA.save.reload.save.image.map (fun f => f.name) =
      some "photo_optimized_optimized.jpg" := by
  decide

/-!
## C8
-/

/-- C8: with a resolved tenant and only the search term supplied, the
search endpoint 400s with the usage hint on a blank (empty or
whitespace-only) term; on a non-blank term it serves a page of a queryset
that holds exactly the tenant's articles whose model, brand or category
name contains the term case-insensitively, with no duplicates. -/
theorem c8_recherche_exact (clients : List Client) (req : Request)
    (db : List Article) (c : Client)
    (hc : get_client_from_request clients req = some c)
    (hm : req.getParam "marque" = none)
    (hpx : req.getParam "prix_max" = none) :
    (pyStrip ((req.getParam "q").getD "") = "" →
      recherche clients req db =
        some (SearchResult.badRequest "Le paramètre \"q\" est requis"
          "/recherche/?q=iphone")) ∧
    (pyStrip ((req.getParam "q").getD "") ≠ "" →
      ∃ l, rechercheQueryset clients req db = some l ∧
        recherche clients req db =
          some (SearchResult.ok (paginate_queryset req l)) ∧
        l.Nodup ∧
        (∀ a, a ∈ l ↔ a ∈ db ∧ a.clientId = c.id ∧
          matchesSearch a (pyStrip ((req.getParam "q").getD "")) = true)) := by
  have hqs : rechercheQueryset clients req db =
      some (((db.filter (fun a =>
          matchesSearch a (pyStrip ((req.getParam "q").getD "")))).dedup).filter
        (fun a => a.clientId == c.id)) := by
    unfold rechercheQueryset filter_queryset_by_client
    rw [hc, hm, hpx]
    simp [applyMarqueFilter, applyPrixLte, pyTruthy]
  constructor
  · intro hq
    unfold recherche
    rw [hq]
    simp
  · intro hq
    refine ⟨_, hqs, ?_, ?_, ?_⟩
    · unfold recherche
      rw [if_neg hq, hqs]
      rfl
    · exact (List.nodup_dedup _).filter _
    · intro a
      simp only [List.mem_filter, List.mem_dedup, beq_iff_eq]
      tauto

/-- A fixture request searching for `iphone` against the active tenant. -/
def reqSearch : Request :=
  { httpOrigin := some "https://acme.example", httpReferer := none
    queryParams := [("q", "iphone")] }

/-- C8 witness: the fixture search request resolves the active tenant and
satisfies both branches of the search contract. -/
theorem c8_witness :
    (pyStrip ((reqSearch.getParam "q").getD "") = "" →
      recherche clientsW reqSearch dbW =
        some (SearchResult.badRequest "Le paramètre \"q\" est requis"
          "/recherche/?q=iphone")) ∧
    (pyStrip ((reqSearch.getParam "q").getD "") ≠ "" →
      ∃ l, rechercheQueryset clientsW reqSearch dbW = some l ∧
        recherche clientsW reqSearch dbW =
          some (SearchResult.ok (paginate_queryset reqSearch l)) ∧
        l.Nodup ∧
        (∀ a, a ∈ l ↔ a ∈ dbW ∧ a.clientId = clientA.id ∧
          matchesSearch a (pyStrip ((reqSearch.getParam "q").getD "")) =
            true)) :=
  c8_recherche_exact clientsW reqSearch dbW clientA (by decide) rfl rfl

/-!
## C9
-/

/-- A featured request that also carries a `marque` query parameter. -/
def reqFeatured : Request :=
  { httpOrigin := some "https://acme.example", httpReferer := none
    queryParams := [("marque", "Samsung")] }

/-- C9 counterexample: the claim as stated — featured returns the first 8
rows of the tenant-scoped default-ordered set with no other filters — is
false at this concrete request: `featured` runs through `get_queryset`,
which applies the request's `marque` filter, so the tenant's newest
article is missing from the response. -/
theorem c9_counterexample :
    featured clientsW reqFeatured dbW ≠
      some ((filter_queryset_by_client clientsW reqFeatured dbW).take 8) ∧
    featured clientsW reqFeatured dbW = some [articleS] := by
  decide

/-- The marque filter only ever narrows the queryset. -/
theorem applyMarqueFilter_sublist (param : Option String)
    (qs : List Article) : (applyMarqueFilter param qs).Sublist qs := by
  unfold applyMarqueFilter
  split
  · exact List.filter_sublist _
  · exact List.Sublist.refl _

/-- The categorie filter only ever narrows the queryset. -/
theorem applyCategorieFilter_sublist (param : Option String)
    (qs : List Article) : (applyCategorieFilter param qs).Sublist qs := by
  unfold applyCategorieFilter
  split
  · exact List.filter_sublist _
  · exact List.Sublist.refl _

/-- When the lower price bound accepts, it only narrowed the queryset. -/
theorem applyPrixGte_sublist (param : Option String) (qs l : List Article)
    (h : applyPrixGte param qs = some l) : l.Sublist qs := by
  unfold applyPrixGte at h
  split at h
  · split at h
    · obtain rfl := Option.some.inj h
      exact List.filter_sublist _
    · exact Option.noConfusion h
  · obtain rfl := Option.some.inj h
    exact List.Sublist.refl _

/-- When the upper price bound accepts, it only narrowed the queryset. -/
theorem applyPrixLte_sublist (param : Option String) (qs l : List Article)
    (h : applyPrixLte param qs = some l) : l.Sublist qs := by
  unfold applyPrixLte at h
  split at h
  · split at h
    · obtain rfl := Option.some.inj h
      exact List.filter_sublist _
    · exact Option.noConfusion h
  · obtain rfl := Option.some.inj h
    exact List.Sublist.refl _

/-- A queryset the article view serves is drawn from the tenant-scoped
set: every query-parameter filter only narrows it. -/
theorem get_queryset_sublist (clients : List Client) (req : Request)
    (db : List Article) (qs : List Article)
    (h : apiArticle_get_queryset clients req db = some qs) :
    qs.Sublist (filter_queryset_by_client clients req db) := by
  unfold apiArticle_get_queryset at h
  cases hg : applyPrixGte (req.getParam "prix_min")
      (applyCategorieFilter (req.getParam "categorie")
        (applyMarqueFilter (req.getParam "marque")
          (filter_queryset_by_client clients req db))) with
  | none => rw [hg] at h; exact Option.noConfusion h
  | some s3 =>
      rw [hg] at h
      simp only [Option.some_bind] at h
      have h4 := applyPrixLte_sublist _ _ _ h
      have h3 := applyPrixGte_sublist _ _ _ hg
      exact h4.trans (h3.trans
        ((applyCategorieFilter_sublist _ _).trans
          (applyMarqueFilter_sublist _ _)))

/-- C9 (amended): for every request the featured endpoint answers, it
returns at most 8 articles, all belonging to the resolved tenant, ordered
most-recently-added first, drawn from the tenant-scoped default-ordered
set as further narrowed by the request's marque, categorie and price query
parameters (with no parameters present, nothing narrows it further). -/
theorem c9_featured_amended (clients : List Client) (req : Request)
    (db : List Article) (c : Client) (l : List Article)
    (hc : get_client_from_request clients req = some c)
    (hsorted : db.Sorted (fun a b => b.date_ajout ≤ a.date_ajout))
    (hl : featured clients req db = some l) :
    l.length ≤ 8 ∧ (∀ a ∈ l, a.clientId = c.id) ∧
    l.Sorted (fun a b => b.date_ajout ≤ a.date_ajout) ∧
    l.Sublist (filter_queryset_by_client clients req db) := by
  unfold featured at hl
  cases hgq : apiArticle_get_queryset clients req db with
  | none => rw [hgq] at hl; exact Option.noConfusion hl
  | some qs =>
      rw [hgq] at hl
      simp only [Option.map_some', Option.some.injEq] at hl
      subst hl
      have hsub : qs.Sublist (filter_queryset_by_client clients req db) :=
        get_queryset_sublist clients req db qs hgq
      have hscoped : (filter_queryset_by_client clients req db).Sublist db := by
        unfold filter_queryset_by_client
        rw [hc]
        exact List.filter_sublist _
      have htake : (qs.take 8).Sublist qs := List.take_sublist 8 qs
      refine ⟨List.length_take_le 8 qs, ?_, ?_, htake.trans hsub⟩
      · intro a ha
        have hmem : a ∈ filter_queryset_by_client clients req db :=
          (htake.trans hsub).subset ha
        unfold filter_queryset_by_client at hmem
        rw [hc] at hmem
        have := (List.mem_filter.mp hmem).2
        exact beq_iff_eq.mp this
      · exact hsorted.sublist ((htake.trans hsub).trans hscoped)

/-- C9 witness: a parameterless request against the fixtures yields the
two tenant rows, newest first, within the amended contract. -/
theorem c9_witness :
    [articleA, articleS].length ≤ 8 ∧
    (∀ a ∈ [articleA, articleS], a.clientId = clientA.id) ∧
    List.Sorted (fun a b => b.date_ajout ≤ a.date_ajout)
      [articleA, articleS] ∧
    List.Sublist [articleA, articleS]
      (filter_queryset_by_client clientsW reqAcme dbW) :=
  c9_featured_amended clientsW reqAcme dbW clientA [articleA, articleS]
    (by decide) (by decide) (by decide)

/-!
## C10
-/

/-- C10: the page size the paginator uses is at most 50 — 12 when the
caller sends no `page_size`, the capped value 50 when the caller requests
50 or more — so every page any of the three paginated endpoints (article
list, category filter, search) returns holds at most 50 rows. -/
theorem c10_pagination_caps (clients : List Client) (req : Request)
    (db : List Article) :
    get_page_size req ≤ 50 ∧
    (req.getParam "page_size" = none → get_page_size req = 12) ∧
    (∀ s n, req.getParam "page_size" = some s → pyInt? s = some n →
      50 ≤ n → get_page_size req = 50) ∧
    (∀ l : List Article, (paginate_queryset req l).length ≤ 50) ∧
    (∀ page, articleList clients req db = some page →
      page.length ≤ 50) ∧
    (filtreur clients req db).length ≤ 50 ∧
    (∀ page, recherche clients req db = some (SearchResult.ok page) →
      page.length ≤ 50) := by
  have hps : get_page_size req ≤ 50 := by
    unfold get_page_size
    split
    · norm_num
    · split
      · norm_num
      · split
        · norm_num
        · exact min_le_right _ _
  have hlen : ∀ l : List Article, (paginate_queryset req l).length ≤ 50 :=
    fun l => le_trans (List.length_take_le _ _) hps
  refine ⟨hps, ?_, ?_, hlen, ?_, hlen _, ?_⟩
  · intro h
    unfold get_page_size
    rw [h]
  · intro s n hs hn h50
    simp only [get_page_size, hs, hn]
    split
    · omega
    · omega
  · intro page h
    unfold articleList at h
    cases hgq : apiArticle_get_queryset clients req db with
    | none => rw [hgq] at h; exact Option.noConfusion h
    | some qs =>
        rw [hgq] at h
        simp only [Option.map_some', Option.some.injEq] at h
        subst h
        exact hlen _
  · intro page h
    unfold recherche at h
    split at h
    · exact absurd (Option.some.inj h) (by simp)
    · cases hrq : rechercheQueryset clients req db with
      | none => rw [hrq] at h; exact Option.noConfusion h
      | some l =>
          rw [hrq] at h
          simp only [Option.map_some', Option.some.injEq,
            SearchResult.ok.injEq] at h
          subst h
          exact hlen _

end MultiTenant
